import Mathlib

/-!
Verification of the task-picker modal in `crates/tasks_ui/src/modal.rs`.

The development shallowly embeds the pure core of `TasksModalDelegate`:
candidate-list construction, the post-fuzzy match update (stable partition
by history membership, divider computation, selection clamping), the confirm
family of operations, and history-entry deletion.  External collaborators
(the execution side of `schedule_resolved_task`, the `DismissEvent` emission,
and the picker refresh) are made explicit in each operation's return value:
a list of dispatched `(source kind, task, omit_history)` triples and boolean
flags for "session dismissed" / "refresh requested".
-/

namespace TasksModal

/-- The source a task template came from (`project::TaskSourceKind`). -/
inductive TaskSourceKind where
  | UserInput : TaskSourceKind
  | AbsPath : String → TaskSourceKind
  | Worktree : Nat → TaskSourceKind
  | Language : String → TaskSourceKind
deriving DecidableEq

/-- The resolved command line of a task (`task::SpawnInTerminal`), of which the
claims only need the `command_label` field. -/
structure SpawnInTerminal where
  command_label : String
deriving DecidableEq

/-- A task after variable substitution (`task::ResolvedTask`).  The fields are
the ones the modal code reads: the stable id, the substituted label, the
display label and the optional resolved command line. -/
structure ResolvedTask where
  id : String
  resolved_label : String
  display_label : String
  resolved : Option SpawnInTerminal
deriving DecidableEq

/-- A single fuzzy-match result (`fuzzy::StringMatch`): the candidate id it
refers to, the matched display string and the highlighted positions.  The
floating-point score is not read by any code the claims mention, so it is
omitted from the embedding. -/
structure StringMatch where
  candidate_id : Nat
  string : String
  positions : List Nat
deriving DecidableEq

/-- A candidate handed to the fuzzy matcher (`fuzzy::StringMatchCandidate`). -/
structure StringMatchCandidate where
  id : Nat
  char_bag : List Char
  string : String
deriving DecidableEq

/-- A static task definition (`task::TaskTemplate`). -/
structure TaskTemplate where
  label : String
  command : String
  args : List String
  env : List (String × String)
deriving DecidableEq

/-- `TaskTemplate::default()`: all fields empty. -/
def TaskTemplate.default : TaskTemplate :=
  { label := "", command := "", args := [], env := [] }

/-- The editor-context variable map (`task::TaskContext`), a mapping from
variable names to values. -/
abbrev TaskContext : Type := List (String × String)

/-- One candidate entry of the modal: a `(TaskSourceKind, ResolvedTask)` pair. -/
abbrev Candidate := TaskSourceKind × ResolvedTask

/-- The pure state of `TasksModalDelegate`.  The `task_store`, `workspace` and
`placeholder_text` handles are external collaborators and are not part of the
embedded state; the inventory they give access to appears explicitly as an
argument or as the `inventory` component of `SessionState` below. -/
structure TasksModalDelegate where
  candidates : Option (List Candidate)
  last_used_candidate_index : Option Nat
  divider_index : Option Nat
  «matches» : List StringMatch
  selected_index : Nat
  prompt : String
  task_context : TaskContext
deriving DecidableEq

/-- The delegate together with the persistent inventory history it can mutate
through `task_store`.  The inventory is embedded as the list of its history
entries. -/
structure SessionState where
  delegate : TasksModalDelegate
  inventory : List Candidate
deriving DecidableEq

/-- Result of a confirm-style operation: the delegate state afterwards, the
`(kind, task, omit_history_entry)` triples handed to `schedule_resolved_task`,
and whether a `DismissEvent` was emitted (the session ended). -/
structure ConfirmEffect where
  state : TasksModalDelegate
  dispatched : List (TaskSourceKind × ResolvedTask × Bool)
  dismissed : Bool
deriving DecidableEq

/-- Result of `confirm_completion`: the returned replacement query, plus the
same effect components as `ConfirmEffect` (the Rust body contains no call to
`schedule_resolved_task` and no event emission, which the embedding records as
an empty dispatch list and `dismissed = false`). -/
structure CompletionResult where
  result : Option String
  dispatched : List (TaskSourceKind × ResolvedTask × Bool)
  dismissed : Bool
deriving DecidableEq

/-- Result of the first phase of `update_matches`: the delegate (with
candidates possibly built and stored), the string-match candidates handed to
the fuzzy matcher, and whether the inventory was queried
(`used_and_current_resolved_tasks` called). -/
structure CandidatesResult where
  delegate : TasksModalDelegate
  match_candidates : List StringMatchCandidate
  queried_inventory : Bool
deriving DecidableEq

/-- Rust `str::trim`: drop whitespace from both ends. -/
def rust_trim (s : String) : String :=
  String.mk (((s.data.dropWhile Char.isWhitespace).reverse.dropWhile
    Char.isWhitespace).reverse)

/-- Modelled from the spec: the Variable Substitution Engine (§4.1) lives in
the `task` crate, which is not among the sources; it replaces every recognized
`$NAME` token with its context value, leaving unrecognized tokens verbatim. -/
def substitute_variables (ctx : TaskContext) (s : String) : String :=
  ctx.foldl (fun acc kv => acc.replace ("$" ++ kv.1) kv.2) s

/-- Modelled from the spec: `TaskSourceKind::to_id_base` is defined in the
`project` crate, which is not among the sources; per §4.2 it gives the
source-kind id-base from which resolved-task ids are derived. -/
def TaskSourceKind.to_id_base : TaskSourceKind → String
  | .UserInput => "oneshot"
  | .AbsPath p => "abs_path_" ++ p
  | .Worktree i => "worktree_" ++ toString i
  | .Language n => "language_" ++ n

/-- Modelled from the spec: `TaskTemplate::resolve_task` is defined in the
`task` crate, which is not among the sources.  Per §4.2 it substitutes context
variables into the template, fails (returns none) when the substituted command
trims to empty, and otherwise deterministically produces a resolved task with
a stable id derived from the id-base and the template/context. -/
def resolve_task (template : TaskTemplate) (id_base : String)
    (ctx : TaskContext) : Option ResolvedTask :=
  let command := substitute_variables ctx template.command
  if rust_trim command = "" then none
  else
    let label := substitute_variables ctx template.label
    some { id := id_base ++ ":" ++ label ++ ":" ++ command
           resolved_label := label
           display_label := label
           resolved := some { command_label := command } }

/-- Modelled from the spec: `Inventory::delete_previously_used` is defined in
the `project` crate, which is not among the sources; per §4.3 it removes the
history entry whose task id matches, and is idempotent when absent. -/
def inventory_delete_previously_used (id : String) (inv : List Candidate) :
    List Candidate :=
  inv.filter (fun e => decide (e.2.id ≠ id))

/-- `string_match_candidates` (modal.rs): every candidate is turned into a
`StringMatchCandidate` whose id is its index in the enumerated list. -/
def string_match_candidates (candidates : List Candidate) :
    List StringMatchCandidate :=
  candidates.enum.map fun p =>
    { id := p.1, char_bag := p.2.2.resolved_label.data
      string := p.2.2.display_label }

/-- `TasksModalDelegate::spawn_oneshot`: none for a prompt that trims to
empty, otherwise a `UserInput` oneshot template (label = command = prompt)
resolved against the session's task context. -/
def spawn_oneshot (d : TasksModalDelegate) :
    Option (TaskSourceKind × ResolvedTask) :=
  if rust_trim d.prompt = "" then none
  else
    let source_kind := TaskSourceKind.UserInput
    let id_base := source_kind.to_id_base
    let new_oneshot : TaskTemplate :=
      { TaskTemplate.default with label := d.prompt, command := d.prompt }
    (resolve_task new_oneshot id_base d.task_context).map
      (fun t => (source_kind, t))

/-- `TasksModalDelegate::delete_previously_used`: early return (no mutation at
all) when there is no candidate list or the index is out of bounds; otherwise
remove the candidate at `ix` from the session list and delete the task with
the same id from the persistent inventory. -/
def delete_previously_used (ix : Nat) (s : SessionState) : SessionState :=
  match s.delegate.candidates with
  | none => s
  | some candidates =>
    match candidates[ix]? with
    | none => s
    | some c =>
      { delegate := { s.delegate with candidates := some (candidates.eraseIdx ix) }
        inventory := inventory_delete_previously_used c.2.id s.inventory }

/-- Rust `usize::checked_sub`. -/
def checked_sub (n m : Nat) : Option Nat :=
  if n < m then none else some (n - m)

/-- The delete-button click handler inside `render_match` (modal.rs lines
373–384): call `delete_previously_used` with the match's candidate id, shift
`last_used_candidate_index` down via `unwrap_or(0).checked_sub(1)`, and
request a picker refresh (the returned boolean). -/
def delete_button_click (task_index : Nat) (s : SessionState) :
    SessionState × Bool :=
  let s1 := delete_previously_used task_index s
  ({ s1 with
      delegate := { s1.delegate with
        last_used_candidate_index :=
          checked_sub (s1.delegate.last_used_candidate_index.getD 0) 1 } },
    true)

/-- `TasksModalDelegate::confirm`: look up the match at the selected index,
resolve it through the candidate list, and either do nothing (no dispatch, no
dismiss) or hand the pair to `schedule_resolved_task` exactly once and emit
`DismissEvent`.  The inner out-of-bounds arm mirrors the panicking Rust
indexing `candidates[ix]`; the ids-in-range theorem shows fuzzy-matcher
output never reaches it. -/
def confirm (omit_history_entry : Bool) (d : TasksModalDelegate) :
    ConfirmEffect :=
  match d.matches[d.selected_index]? with
  | none => { state := d, dispatched := [], dismissed := false }
  | some current_match =>
    match d.candidates with
    | none => { state := d, dispatched := [], dismissed := false }
    | some candidates =>
      match candidates[current_match.candidate_id]? with
      | none => { state := d, dispatched := [], dismissed := false }
      | some c =>
        { state := d
          dispatched := [(c.1, c.2, omit_history_entry)]
          dismissed := true }

/-- `TasksModalDelegate::confirm_input`: resolve the prompt as a oneshot; on
none, return without dispatching or dismissing; otherwise dispatch once and
emit `DismissEvent`. -/
def confirm_input (omit_history_entry : Bool) (d : TasksModalDelegate) :
    ConfirmEffect :=
  match spawn_oneshot d with
  | none => { state := d, dispatched := [], dismissed := false }
  | some c =>
    { state := d
      dispatched := [(c.1, c.2, omit_history_entry)]
      dismissed := true }

/-- `TasksModalDelegate::confirm_completion`: chase the selected match to its
candidate's resolved command label; any missing link yields none.  No dispatch
and no dismissal happen in the Rust body, recorded by the effect fields. -/
def confirm_completion (d : TasksModalDelegate) : CompletionResult :=
  match d.matches[d.selected_index]? with
  | none => { result := none, dispatched := [], dismissed := false }
  | some current_match =>
    match d.candidates with
    | none => { result := none, dispatched := [], dismissed := false }
    | some tasks =>
      match tasks[current_match.candidate_id]? with
      | none => { result := none, dispatched := [], dismissed := false }
      | some c =>
        match c.2.resolved with
        | none => { result := none, dispatched := [], dismissed := false }
        | some resolved =>
          { result := some resolved.command_label
            dispatched := [], dismissed := false }

/-- `separators_after_indices` (modal.rs): a single separator after the
divider index when one exists. -/
def separators_after_indices (d : TasksModalDelegate) : List Nat :=
  match d.divider_index with
  | some i => [i]
  | none => []

/-- Stable insertion of `a` into a list sorted by the boolean key
(`false` before `true`): walk past every element whose key is strictly
smaller, then insert before the first element with an equal or larger key. -/
def insertByKey (key : α → Bool) (a : α) : List α → List α
  | [] => [a]
  | b :: bs =>
    if key a && !(key b) then b :: insertByKey key a bs else a :: b :: bs

/-- Stable sort by a boolean key (`false` before `true`).  Rust's
`Vec::sort_by_key` is a stable sort, and a stable sort's output is uniquely
determined by the key order, so this insertion sort is a faithful embedding
of `matches.sort_by_key(|m| m.candidate_id > index)`. -/
def sortByKey (key : α → Bool) (l : List α) : List α :=
  l.foldr (insertByKey key) []

/-- Rust `slice::partition_point`: a binary search that, on a slice
partitioned by `p` (which the call site guarantees, running right after the
stable sort by the complementary key), returns the number of leading elements
satisfying `p`. -/
def partition_point (p : α → Bool) (l : List α) : Nat :=
  (l.takeWhile p).length

/-- The state update `update_matches` performs after the fuzzy matcher
returns (modal.rs lines 227–249): store the matches, stably sort them by
"candidate id past the last-used index", store the query as the prompt,
recompute the divider index from the partition point, and clamp the selected
index. -/
def update_matches_apply (fuzzy_matches : List StringMatch) (query : String)
    (d : TasksModalDelegate) : TasksModalDelegate :=
  let sorted :=
    match d.last_used_candidate_index with
    | some index =>
        sortByKey (fun m => decide (m.candidate_id > index)) fuzzy_matches
    | none => fuzzy_matches
  let divider :=
    match d.last_used_candidate_index with
    | some index =>
        let i := partition_point (fun m => decide (m.candidate_id ≤ index)) sorted
        if i ≠ 0 then some (i - 1) else none
    | none => none
  { d with
    «matches» := sorted
    prompt := query
    divider_index := divider
    selected_index :=
      if sorted.isEmpty then 0 else min d.selected_index (sorted.length - 1) }

/-- The candidate-building phase of `update_matches` (modal.rs lines
168–213): when the session already holds a candidate list it is reused and
the inventory is not queried; otherwise the inventory's
`used_and_current_resolved_tasks` output (`used`, `current`) is combined as
history followed by current, the last-used index recorded, and the list
stored in the session. -/
def update_matches_build (used current : List Candidate)
    (d : TasksModalDelegate) : CandidatesResult :=
  match d.candidates with
  | some candidates =>
    { delegate := d
      match_candidates := string_match_candidates candidates
      queried_inventory := false }
  | none =>
    let last := if used.isEmpty then none else some (used.length - 1)
    let new_candidates := used ++ current
    { delegate := { d with
        last_used_candidate_index := last
        candidates := some new_candidates }
      match_candidates := string_match_candidates new_candidates
      queried_inventory := true }

/-- Inserting an element whose key is `false` puts it in front. -/
theorem insertByKey_of_key_false {α : Type _} (key : α → Bool) (a : α)
    (h : key a = false) (l : List α) : insertByKey key a l = a :: l := by
  cases l with
  | nil => rfl
  | cons b bs => simp [insertByKey, h]

/-- Inserting an element whose key is `true` into a partitioned list places it
right between the `false` block and the `true` block. -/
theorem insertByKey_append {α : Type _} (key : α → Bool) (a : α)
    (h : key a = true) (u v : List α) (hu : ∀ x ∈ u, key x = false)
    (hv : ∀ x ∈ v, key x = true) :
    insertByKey key a (u ++ v) = u ++ a :: v := by
  induction u with
  | nil =>
    cases v with
    | nil => rfl
    | cons b bs =>
      simp [insertByKey, h, hv b (List.mem_cons_self b bs)]
  | cons x u ih =>
    have hx := hu x (List.mem_cons_self x u)
    simp only [List.cons_append, insertByKey, h, hx, Bool.not_false,
      Bool.and_self, if_true]
    exact congrArg (x :: ·) (ih (fun y hy => hu y (List.mem_cons_of_mem x hy)))

/-- The stable sort by a boolean key is exactly the stable partition: the
elements with key `false` in their original relative order, followed by the
elements with key `true` in their original relative order. -/
theorem sortByKey_eq_filter_append {α : Type _} (key : α → Bool)
    (l : List α) :
    sortByKey key l = l.filter (fun a => !(key a)) ++ l.filter key := by
  induction l with
  | nil => rfl
  | cons x l ih =>
    have hfold : sortByKey key (x :: l) = insertByKey key x (sortByKey key l) :=
      rfl
    rw [hfold, ih]
    by_cases hx : key x = true
    · rw [insertByKey_append key x hx _ _
        (fun y hy => by
          have := List.of_mem_filter hy
          simpa using this)
        (fun y hy => List.of_mem_filter hy)]
      simp [List.filter_cons, hx]
    · have hx' : key x = false := Bool.eq_false_iff.mpr hx
      rw [insertByKey_of_key_false key x hx']
      simp [List.filter_cons, hx']

/-- `takeWhile` over a partitioned concatenation returns the left block. -/
theorem takeWhile_append_of_partition {α : Type _} (p : α → Bool)
    (B : List α) (hB : ∀ b ∈ B, p b = false) :
    ∀ A : List α, (∀ a ∈ A, p a = true) → (A ++ B).takeWhile p = A := by
  intro A
  induction A with
  | nil =>
    intro _
    cases B with
    | nil => rfl
    | cons b bs => simp [List.takeWhile_cons, hB b (List.mem_cons_self b bs)]
  | cons x A ih =>
    intro hA
    simp only [List.cons_append, List.takeWhile_cons,
      hA x (List.mem_cons_self x A), if_true]
    exact congrArg (x :: ·) (ih (fun a ha => hA a (List.mem_cons_of_mem x ha)))

/-- Complement of the history key: failing `candidate_id > i` is exactly
`candidate_id ≤ i`. -/
theorem not_gt_key_eq_le_key (i : Nat) (m : StringMatch) :
    (!(decide (m.candidate_id > i))) = decide (m.candidate_id ≤ i) := by
  rw [← decide_not]
  exact decide_eq_decide.mpr Nat.not_lt

/-- After the stable sort, the partition point for `candidate_id ≤ i` counts
exactly the history-partition matches surviving the fuzzy filter. -/
theorem partition_point_sortByKey (i : Nat) (ms : List StringMatch) :
    partition_point (fun m => decide (m.candidate_id ≤ i))
      (sortByKey (fun m => decide (m.candidate_id > i)) ms)
    = (ms.filter (fun m => decide (m.candidate_id ≤ i))).length := by
  rw [sortByKey_eq_filter_append, partition_point,
    takeWhile_append_of_partition _ _
      (fun b hb => by
        have := List.of_mem_filter hb
        simp only [decide_eq_true_eq] at this
        simp [Nat.not_le.mpr this])
      _
      (fun a ha => by
        have := List.of_mem_filter ha
        rwa [not_gt_key_eq_le_key] at this)]
  congr 1
  exact List.filter_congr (fun x _ => not_gt_key_eq_le_key i x)

/-- Shared helper: with a known last-history index, the recomputed match list
is the stable partition of the fuzzy output. -/
theorem update_matches_apply_matches_eq
    (d : TasksModalDelegate) (ms : List StringMatch) (q : String) (i : Nat)
    (h : d.last_used_candidate_index = some i) :
    (update_matches_apply ms q d).matches
      = ms.filter (fun m => decide (m.candidate_id ≤ i))
        ++ ms.filter (fun m => decide (m.candidate_id > i)) := by
  simp only [update_matches_apply, h]
  rw [sortByKey_eq_filter_append]
  congr 1
  exact List.filter_congr (fun x _ => not_gt_key_eq_le_key i x)

/-- Shared helper: with a known last-history index, the recomputed divider
index is the number of surviving history matches minus one, or none when no
history match survives. -/
theorem update_matches_apply_divider_eq
    (d : TasksModalDelegate) (ms : List StringMatch) (q : String) (i : Nat)
    (h : d.last_used_candidate_index = some i) :
    (update_matches_apply ms q d).divider_index
      = (if (ms.filter (fun m => decide (m.candidate_id ≤ i))).length ≠ 0
         then some ((ms.filter (fun m => decide (m.candidate_id ≤ i))).length - 1)
         else none) := by
  simp only [update_matches_apply, h]
  rw [partition_point_sortByKey]

/-- Sample delegate for witnesses: the freshly opened modal state. -/
def base_delegate : TasksModalDelegate :=
  { candidates := none, last_used_candidate_index := none
    divider_index := none, «matches» := [], selected_index := 0
    prompt := "", task_context := [] }

/-- Sample resolved task for witnesses. -/
def sample_task : ResolvedTask :=
  { id := "t-echo4", resolved_label := "echo 4", display_label := "echo 4"
    resolved := some { command_label := "echo 4" } }

/-- Second sample resolved task for witnesses. -/
def sample_task2 : ResolvedTask :=
  { id := "t-example", resolved_label := "example task"
    display_label := "example task"
    resolved := some { command_label := "echo 4" } }

/-- Sample fuzzy match pointing at candidate `n`. -/
def sample_match (n : Nat) : StringMatch :=
  { candidate_id := n, string := "s", positions := [] }

/-- C2: after every match recomputation with a known last-history index `i`,
all matches whose candidate index is at most `i` appear before all matches
whose candidate index exceeds `i`, and within each of the two partitions the
relative order is exactly the fuzzy matcher's output order: the resulting
list is the stable partition of the fuzzy output, not a re-sort by score. -/
theorem update_matches_stable_partition
    (d : TasksModalDelegate) (ms : List StringMatch) (q : String) (i : Nat)
    (h : d.last_used_candidate_index = some i) :
    (update_matches_apply ms q d).matches
      = ms.filter (fun m => decide (m.candidate_id ≤ i))
        ++ ms.filter (fun m => decide (m.candidate_id > i)) :=
  update_matches_apply_matches_eq d ms q i h

/-- Witness for C2 at a concrete input: last-history index 0, fuzzy output
listing candidate 1 before candidate 0; the history match moves in front
while each partition keeps the fuzzy order. -/
theorem update_matches_stable_partition_witness :
    ({ base_delegate with last_used_candidate_index := some 0
       } : TasksModalDelegate).last_used_candidate_index = some 0
    ∧ (update_matches_apply [sample_match 1, sample_match 0] ""
        { base_delegate with last_used_candidate_index := some 0 }).matches
      = ([sample_match 1, sample_match 0].filter
          (fun m => decide (m.candidate_id ≤ 0)))
        ++ ([sample_match 1, sample_match 0].filter
          (fun m => decide (m.candidate_id > 0))) :=
  ⟨rfl, update_matches_stable_partition
    { base_delegate with last_used_candidate_index := some 0 }
    [sample_match 1, sample_match 0] "" 0 rfl⟩

/-- C3: after every match recomputation, the divider sits right after the
history partition: when `h` history-partition matches survive the fuzzy
filter, the single separator is placed after zero-based index `h - 1` (so
exactly `h` matches precede it — they are precisely the history matches),
and when no history match survives there is no divider at all. -/
theorem divider_index_counts_history
    (d1 d2 : TasksModalDelegate) (ms1 ms2 : List StringMatch)
    (q1 q2 : String) (i1 i2 : Nat)
    (h1 : d1.last_used_candidate_index = some i1)
    (hz : (ms1.filter (fun m => decide (m.candidate_id ≤ i1))).length = 0)
    (h2 : d2.last_used_candidate_index = some i2)
    (hp : 0 < (ms2.filter (fun m => decide (m.candidate_id ≤ i2))).length) :
    (update_matches_apply ms1 q1 d1).divider_index = none
    ∧ separators_after_indices (update_matches_apply ms1 q1 d1) = []
    ∧ (update_matches_apply ms2 q2 d2).divider_index
        = some ((ms2.filter (fun m => decide (m.candidate_id ≤ i2))).length - 1)
    ∧ separators_after_indices (update_matches_apply ms2 q2 d2)
        = [(ms2.filter (fun m => decide (m.candidate_id ≤ i2))).length - 1]
    ∧ (update_matches_apply ms2 q2 d2).matches.take
        ((ms2.filter (fun m => decide (m.candidate_id ≤ i2))).length)
        = ms2.filter (fun m => decide (m.candidate_id ≤ i2)) := by
  have e1 : (update_matches_apply ms1 q1 d1).divider_index = none := by
    rw [update_matches_apply_divider_eq d1 ms1 q1 i1 h1, hz]
    simp
  have e2 : (update_matches_apply ms2 q2 d2).divider_index
      = some ((ms2.filter (fun m => decide (m.candidate_id ≤ i2))).length - 1) := by
    rw [update_matches_apply_divider_eq d2 ms2 q2 i2 h2,
      if_pos (Nat.pos_iff_ne_zero.mp hp)]
  refine ⟨e1, ?_, e2, ?_, ?_⟩
  · rw [separators_after_indices, e1]
  · rw [separators_after_indices, e2]
  · rw [update_matches_apply_matches_eq d2 ms2 q2 i2 h2]
    exact List.take_left _ _

/-- Witness for C3 at concrete inputs: with last-history index 0, the fuzzy
output `[candidate 1]` leaves no history match and no divider, while
`[candidate 0]` leaves one history match and a separator after index 0. -/
theorem divider_index_counts_history_witness :
    ({ base_delegate with last_used_candidate_index := some 0
       } : TasksModalDelegate).last_used_candidate_index = some 0
    ∧ ([sample_match 1].filter (fun m => decide (m.candidate_id ≤ 0))).length = 0
    ∧ 0 < ([sample_match 0].filter (fun m => decide (m.candidate_id ≤ 0))).length
    ∧ (update_matches_apply [sample_match 1] "q"
        { base_delegate with last_used_candidate_index := some 0 }).divider_index
      = none
    ∧ separators_after_indices (update_matches_apply [sample_match 1] "q"
        { base_delegate with last_used_candidate_index := some 0 }) = []
    ∧ (update_matches_apply [sample_match 0] "q"
        { base_delegate with last_used_candidate_index := some 0 }).divider_index
      = some (([sample_match 0].filter
          (fun m => decide (m.candidate_id ≤ 0))).length - 1)
    ∧ separators_after_indices (update_matches_apply [sample_match 0] "q"
        { base_delegate with last_used_candidate_index := some 0 })
      = [([sample_match 0].filter
          (fun m => decide (m.candidate_id ≤ 0))).length - 1]
    ∧ (update_matches_apply [sample_match 0] "q"
        { base_delegate with last_used_candidate_index := some 0 }).matches.take
        (([sample_match 0].filter (fun m => decide (m.candidate_id ≤ 0))).length)
      = [sample_match 0].filter (fun m => decide (m.candidate_id ≤ 0)) := by
  have main := divider_index_counts_history
    { base_delegate with last_used_candidate_index := some 0 }
    { base_delegate with last_used_candidate_index := some 0 }
    [sample_match 1] [sample_match 0] "q" "q" 0 0
    rfl (by decide) rfl (by decide)
  exact ⟨rfl, by decide, by decide, main.1, main.2.1, main.2.2.1,
    main.2.2.2.1, main.2.2.2.2⟩

/-- C7: after every match recomputation the selected index follows the code's
clamp — reset to 0 on an empty match list, otherwise the minimum of the old
selection and `match_count - 1` — and is therefore always either 0 or a valid
index into the match list. -/
theorem selected_index_clamped
    (d : TasksModalDelegate) (ms : List StringMatch) (q : String) :
    (update_matches_apply ms q d).selected_index
      = (if (update_matches_apply ms q d).matches.isEmpty then 0
         else min d.selected_index
           ((update_matches_apply ms q d).matches.length - 1))
    ∧ ((update_matches_apply ms q d).selected_index = 0
       ∨ (update_matches_apply ms q d).selected_index
           < (update_matches_apply ms q d).matches.length) := by
  have hsel : (update_matches_apply ms q d).selected_index
      = (if (update_matches_apply ms q d).matches.isEmpty then 0
         else min d.selected_index
           ((update_matches_apply ms q d).matches.length - 1)) := rfl
  refine ⟨hsel, ?_⟩
  by_cases hl : (update_matches_apply ms q d).matches.isEmpty = true
  · left
    rw [hsel, if_pos hl]
  · right
    rw [hsel, if_neg hl]
    have hne : (update_matches_apply ms q d).matches ≠ [] := by
      intro e
      rw [e] at hl
      exact hl rfl
    have hpos : 0 < (update_matches_apply ms q d).matches.length :=
      List.length_pos.mpr hne
    calc min d.selected_index ((update_matches_apply ms q d).matches.length - 1)
        ≤ (update_matches_apply ms q d).matches.length - 1 :=
          Nat.min_le_right _ _
      _ < (update_matches_apply ms q d).matches.length :=
          Nat.sub_lt hpos Nat.one_pos

/-- Sample delegate with one candidate and one match for witnesses. -/
def single_match_delegate : TasksModalDelegate :=
  { base_delegate with
    candidates := some [(TaskSourceKind.UserInput, sample_task)]
    «matches» := [sample_match 0] }

/-- C1: `confirm(omit_history)` is a no-op when no match exists at the
selected index — nothing is dispatched and no `DismissEvent` ends the
session — and otherwise it resolves the selected match through the candidate
list, hands the `(source kind, task)` pair to the execution collaborator
exactly once with the omit flag, and ends the session. -/
theorem confirm_dispatches_selected
    (oh : Bool) (d d' : TasksModalDelegate) (m : StringMatch)
    (cs : List Candidate) (c : Candidate)
    (h1 : d.matches[d.selected_index]? = some m)
    (h2 : d.candidates = some cs)
    (h3 : cs[m.candidate_id]? = some c)
    (h4 : d'.matches[d'.selected_index]? = none) :
    confirm oh d
      = { state := d, dispatched := [(c.1, c.2, oh)], dismissed := true }
    ∧ confirm oh d'
      = { state := d', dispatched := [], dismissed := false } := by
  constructor
  · simp only [confirm, h1, h2, h3]
  · simp only [confirm, h4]

/-- Witness for C1 at concrete inputs: a session with one selected match
dispatches its pair exactly once and dismisses; the empty-match session does
neither. -/
theorem confirm_dispatches_selected_witness :
    single_match_delegate.matches[single_match_delegate.selected_index]?
      = some (sample_match 0)
    ∧ single_match_delegate.candidates
      = some [(TaskSourceKind.UserInput, sample_task)]
    ∧ [(TaskSourceKind.UserInput, sample_task)][(sample_match 0).candidate_id]?
      = some (TaskSourceKind.UserInput, sample_task)
    ∧ base_delegate.matches[base_delegate.selected_index]? = none
    ∧ confirm true single_match_delegate
      = { state := single_match_delegate
          dispatched := [(TaskSourceKind.UserInput, sample_task, true)]
          dismissed := true }
    ∧ confirm true base_delegate
      = { state := base_delegate, dispatched := [], dismissed := false } := by
  have main := confirm_dispatches_selected true single_match_delegate
    base_delegate (sample_match 0) [(TaskSourceKind.UserInput, sample_task)]
    (TaskSourceKind.UserInput, sample_task) rfl rfl rfl rfl
  exact ⟨rfl, rfl, rfl, rfl, main.1, main.2⟩

/-- `dropWhile` of a list all of whose elements satisfy the predicate is
empty. -/
theorem dropWhile_eq_nil_of_all {α : Type _} (p : α → Bool) (l : List α)
    (h : ∀ x ∈ l, p x = true) : l.dropWhile p = [] := by
  induction l with
  | nil => rfl
  | cons x l ih =>
    rw [List.dropWhile_cons, if_pos (h x (List.mem_cons_self x l))]
    exact ih (fun y hy => h y (List.mem_cons_of_mem x hy))

/-- A string of whitespace characters trims to the empty string. -/
theorem rust_trim_eq_empty_of_whitespace (s : String)
    (h : s.data.all Char.isWhitespace = true) : rust_trim s = "" := by
  rw [rust_trim,
    dropWhile_eq_nil_of_all _ _ (fun c hc => List.all_eq_true.mp h c hc)]
  rfl

/-- C4: for a prompt that is empty or consists only of whitespace,
`spawn_oneshot` yields no task and `confirm_input` is a no-op: nothing is
dispatched, no `DismissEvent` is emitted, and no error is raised (the
embedding is total). -/
theorem empty_prompt_no_oneshot
    (d : TasksModalDelegate) (oh : Bool)
    (h : d.prompt.data.all Char.isWhitespace = true) :
    spawn_oneshot d = none
    ∧ confirm_input oh d
      = { state := d, dispatched := [], dismissed := false } := by
  have hs : spawn_oneshot d = none := by
    rw [spawn_oneshot, if_pos (rust_trim_eq_empty_of_whitespace d.prompt h)]
  exact ⟨hs, by simp only [confirm_input, hs]⟩

/-- Witness for C4 at a concrete input: a prompt of two spaces. -/
theorem empty_prompt_no_oneshot_witness :
    (({ base_delegate with prompt := "  " }
      : TasksModalDelegate).prompt.data.all Char.isWhitespace = true)
    ∧ spawn_oneshot { base_delegate with prompt := "  " } = none
    ∧ confirm_input false { base_delegate with prompt := "  " }
      = { state := { base_delegate with prompt := "  " }
          dispatched := [], dismissed := false } := by
  have main := empty_prompt_no_oneshot
    { base_delegate with prompt := "  " } false (by decide)
  exact ⟨by decide, main.1, main.2⟩

/-- C5: the session candidate list is the history sequence followed by the
fresh template-derived sequence, recorded together with the last-history
index, and it is built at most once per session: whenever a candidate list is
already stored, the build phase returns it unchanged without querying the
inventory, and its output is independent of whatever the inventory would now
return. -/
theorem candidates_built_once
    (used current used' current' cs : List Candidate)
    (d : TasksModalDelegate) :
    (update_matches_build used current
        { d with candidates := none }).delegate.candidates
      = some (used ++ current)
    ∧ (update_matches_build used current
        { d with candidates := none }).delegate.last_used_candidate_index
      = (if used.isEmpty then none else some (used.length - 1))
    ∧ (update_matches_build used current
        { d with candidates := none }).queried_inventory = true
    ∧ update_matches_build used current { d with candidates := some cs }
      = { delegate := { d with candidates := some cs }
          match_candidates := string_match_candidates cs
          queried_inventory := false }
    ∧ update_matches_build used current { d with candidates := some cs }
      = update_matches_build used' current' { d with candidates := some cs } :=
  ⟨rfl, rfl, rfl, rfl, rfl⟩

/-- C8: `confirm_completion` never dispatches a task and never ends the
session; it returns the selected candidate's resolved command label when a
match is selected (and the lookup chain resolves), and none when nothing is
selected. -/
theorem confirm_completion_returns_command
    (d d' : TasksModalDelegate) (m : StringMatch) (cs : List Candidate)
    (c : Candidate) (r : SpawnInTerminal)
    (h1 : d.matches[d.selected_index]? = some m)
    (h2 : d.candidates = some cs)
    (h3 : cs[m.candidate_id]? = some c)
    (h4 : c.2.resolved = some r)
    (h5 : d'.matches[d'.selected_index]? = none) :
    confirm_completion d
      = { result := some r.command_label, dispatched := [], dismissed := false }
    ∧ confirm_completion d'
      = { result := none, dispatched := [], dismissed := false } := by
  constructor
  · simp only [confirm_completion, h1, h2, h3, h4]
  · simp only [confirm_completion, h5]

/-- Witness for C8 at concrete inputs: the selected sample task's command
label is returned; the empty-match session returns none; neither dispatches
nor dismisses. -/
theorem confirm_completion_returns_command_witness :
    single_match_delegate.matches[single_match_delegate.selected_index]?
      = some (sample_match 0)
    ∧ single_match_delegate.candidates
      = some [(TaskSourceKind.UserInput, sample_task)]
    ∧ [(TaskSourceKind.UserInput, sample_task)][(sample_match 0).candidate_id]?
      = some (TaskSourceKind.UserInput, sample_task)
    ∧ (TaskSourceKind.UserInput, sample_task).2.resolved
      = some { command_label := "echo 4" }
    ∧ base_delegate.matches[base_delegate.selected_index]? = none
    ∧ confirm_completion single_match_delegate
      = { result := some (SpawnInTerminal.command_label
            { command_label := "echo 4" })
          dispatched := [], dismissed := false }
    ∧ confirm_completion base_delegate
      = { result := none, dispatched := [], dismissed := false } := by
  have main := confirm_completion_returns_command single_match_delegate
    base_delegate (sample_match 0) [(TaskSourceKind.UserInput, sample_task)]
    (TaskSourceKind.UserInput, sample_task) { command_label := "echo 4" }
    rfl rfl rfl rfl rfl
  exact ⟨rfl, rfl, rfl, rfl, rfl, main.1, main.2⟩

/-- `checked_sub n 1` underflows exactly at zero. -/
theorem checked_sub_one (n : Nat) :
    checked_sub n 1 = (if n = 0 then none else some (n - 1)) := by
  cases n with
  | zero => rfl
  | succ k => rfl

/-- C6: deleting the selected previously-used entry (a valid index into the
session candidate list) removes exactly that candidate from the session list,
removes the entries with the matching task id from the persistent inventory,
shifts the history boundary index down by one (`some 0` becoming `none`), and
requests a full match recomputation (the picker refresh flag). -/
theorem delete_selected_history_entry
    (d : TasksModalDelegate) (inv cs : List Candidate) (ix : Nat)
    (c : Candidate) (n : Nat)
    (h1 : d.candidates = some cs)
    (h2 : cs[ix]? = some c)
    (h3 : d.last_used_candidate_index = some n) :
    (delete_button_click ix { delegate := d, inventory := inv }).2 = true
    ∧ (delete_button_click ix
        { delegate := d, inventory := inv }).1.delegate.candidates
      = some (cs.eraseIdx ix)
    ∧ cs.eraseIdx ix = cs.take ix ++ cs.drop (ix + 1)
    ∧ (delete_button_click ix { delegate := d, inventory := inv }).1.inventory
      = inv.filter (fun e => decide (e.2.id ≠ c.2.id))
    ∧ (delete_button_click ix
        { delegate := d, inventory := inv }).1.delegate.last_used_candidate_index
      = (if n = 0 then none else some (n - 1)) := by
  have hdel : delete_previously_used ix { delegate := d, inventory := inv }
      = { delegate := { d with candidates := some (cs.eraseIdx ix) }
          inventory := inventory_delete_previously_used c.2.id inv } := by
    simp only [delete_previously_used, h1, h2]
  refine ⟨rfl, ?_, List.eraseIdx_eq_take_drop_succ cs ix, ?_, ?_⟩
  · simp only [delete_button_click, hdel]
  · simp only [delete_button_click, hdel, inventory_delete_previously_used]
  · simp only [delete_button_click, hdel, h3, Option.getD_some]
    exact checked_sub_one n

/-- Witness for C6 at concrete inputs: one candidate, one history entry,
boundary `some 0` becoming `none` after its deletion. -/
theorem delete_selected_history_entry_witness :
    ({ single_match_delegate with last_used_candidate_index := some 0
       } : TasksModalDelegate).candidates
      = some [(TaskSourceKind.UserInput, sample_task)]
    ∧ [(TaskSourceKind.UserInput, sample_task)][(0 : Nat)]?
      = some (TaskSourceKind.UserInput, sample_task)
    ∧ ({ single_match_delegate with last_used_candidate_index := some 0
       } : TasksModalDelegate).last_used_candidate_index = some 0
    ∧ (delete_button_click 0
        { delegate := { single_match_delegate with
            last_used_candidate_index := some 0 }
          inventory := [(TaskSourceKind.UserInput, sample_task)] }).2 = true
    ∧ (delete_button_click 0
        { delegate := { single_match_delegate with
            last_used_candidate_index := some 0 }
          inventory := [(TaskSourceKind.UserInput, sample_task)]
        }).1.delegate.candidates
      = some ([(TaskSourceKind.UserInput, sample_task)].eraseIdx 0)
    ∧ (delete_button_click 0
        { delegate := { single_match_delegate with
            last_used_candidate_index := some 0 }
          inventory := [(TaskSourceKind.UserInput, sample_task)] }).1.inventory
      = [(TaskSourceKind.UserInput, sample_task)].filter
          (fun e => decide (e.2.id ≠ (TaskSourceKind.UserInput, sample_task).2.id))
    ∧ (delete_button_click 0
        { delegate := { single_match_delegate with
            last_used_candidate_index := some 0 }
          inventory := [(TaskSourceKind.UserInput, sample_task)]
        }).1.delegate.last_used_candidate_index
      = (if (0 : Nat) = 0 then none else some (0 - 1)) := by
  have main := delete_selected_history_entry
    { single_match_delegate with last_used_candidate_index := some 0 }
    [(TaskSourceKind.UserInput, sample_task)]
    [(TaskSourceKind.UserInput, sample_task)] 0
    (TaskSourceKind.UserInput, sample_task) 0 rfl rfl rfl
  exact ⟨rfl, rfl, rfl, main.1, main.2.1, main.2.2.2.1, main.2.2.2.2⟩

/-- C9: every string-match candidate handed to the fuzzy matcher carries as
its id its index in the candidate list it was built from; hence, under the
fuzzy matcher's contract (§4.4, an external capability: each returned match
carries the id of one of the input candidates), every match's `candidate_id`
is a valid index into the candidate list and the direct indexing in `confirm`
cannot go out of bounds. -/
theorem string_match_candidate_ids_safe
    (cs : List Candidate) (ms : List StringMatch) (m : StringMatch)
    (hms : ∀ x ∈ ms, ∃ c ∈ string_match_candidates cs, x.candidate_id = c.id)
    (hm : m ∈ ms) :
    ((string_match_candidates cs).map (fun c => c.id) = List.range cs.length)
    ∧ m.candidate_id < cs.length
    ∧ (cs[m.candidate_id]?).isSome = true := by
  have hids : (string_match_candidates cs).map (fun c => c.id)
      = List.range cs.length := by
    have hcomp : (string_match_candidates cs).map (fun c => c.id)
        = cs.enum.map Prod.fst := by
      rw [string_match_candidates, List.map_map]
      rfl
    rw [hcomp, List.enum_map_fst]
  obtain ⟨c, hc, hid⟩ := hms m hm
  have hmem : c.id ∈ List.range cs.length := by
    rw [← hids]
    exact List.mem_map_of_mem _ hc
  have hlt : m.candidate_id < cs.length := by
    rw [hid]
    exact List.mem_range.mp hmem
  refine ⟨hids, hlt, ?_⟩
  rw [List.getElem?_eq_getElem hlt]
  rfl

/-- Witness for C9 at concrete inputs: two candidates, a fuzzy output naming
candidate 1; its id is in range and indexes the candidate list. -/
theorem string_match_candidate_ids_safe_witness :
    (∀ x ∈ [sample_match 1],
      ∃ c ∈ string_match_candidates
        [(TaskSourceKind.UserInput, sample_task),
         (TaskSourceKind.UserInput, sample_task2)],
        x.candidate_id = c.id)
    ∧ sample_match 1 ∈ [sample_match 1]
    ∧ ((string_match_candidates
        [(TaskSourceKind.UserInput, sample_task),
         (TaskSourceKind.UserInput, sample_task2)]).map (fun c => c.id)
      = List.range
          ([(TaskSourceKind.UserInput, sample_task),
            (TaskSourceKind.UserInput, sample_task2)] : List Candidate).length)
    ∧ (sample_match 1).candidate_id
        < ([(TaskSourceKind.UserInput, sample_task),
            (TaskSourceKind.UserInput, sample_task2)] : List Candidate).length
    ∧ (([(TaskSourceKind.UserInput, sample_task),
         (TaskSourceKind.UserInput, sample_task2)]
        : List Candidate)[(sample_match 1).candidate_id]?).isSome = true := by
  have main := string_match_candidate_ids_safe
    [(TaskSourceKind.UserInput, sample_task),
     (TaskSourceKind.UserInput, sample_task2)]
    [sample_match 1] (sample_match 1) (by decide) (by decide)
  exact ⟨by decide, by decide, main.1, main.2.1, main.2.2⟩

/-- C10: `delete_previously_used(ix)` is an atomic no-op when the session has
no candidate list or `ix` is out of bounds: the whole session state, both the
candidate list and the persistent inventory, is returned unchanged. -/
theorem delete_previously_used_out_of_bounds_noop
    (s s' : SessionState) (ix ix' : Nat) (cs : List Candidate)
    (h1 : s.delegate.candidates = none)
    (h2 : s'.delegate.candidates = some cs)
    (h3 : cs.length ≤ ix') :
    delete_previously_used ix s = s
    ∧ delete_previously_used ix' s' = s' := by
  constructor
  · simp only [delete_previously_used, h1]
  · simp only [delete_previously_used, h2, List.getElem?_eq_none h3]

/-- Witness for C10 at concrete inputs: a session without candidates and a
session whose single-candidate list is indexed at 5. -/
theorem delete_previously_used_out_of_bounds_noop_witness :
    ({ delegate := base_delegate, inventory := [] }
      : SessionState).delegate.candidates = none
    ∧ ({ delegate := single_match_delegate, inventory := [] }
      : SessionState).delegate.candidates
      = some [(TaskSourceKind.UserInput, sample_task)]
    ∧ ([(TaskSourceKind.UserInput, sample_task)] : List Candidate).length ≤ 5
    ∧ delete_previously_used 0 { delegate := base_delegate, inventory := [] }
      = { delegate := base_delegate, inventory := [] }
    ∧ delete_previously_used 5
        { delegate := single_match_delegate, inventory := [] }
      = { delegate := single_match_delegate, inventory := [] } := by
  have main := delete_previously_used_out_of_bounds_noop
    { delegate := base_delegate, inventory := [] }
    { delegate := single_match_delegate, inventory := [] } 0 5
    [(TaskSourceKind.UserInput, sample_task)] rfl rfl (by decide)
  exact ⟨rfl, rfl, by decide, main.1, main.2⟩

end TasksModal
